import Mathlib

/-!
Verification of the gop application framework (trendmicro/gop) against its
natural-language specification.  Each section shallowly embeds the Go code it
verifies; definitions follow the corresponding Go functions and keep their
names where Lean allows.
-/

namespace Gop

/-! ## The request registry control loop

Embeds `App.requestMaker` (gop.go, the version around lines 881-960): a
single-threaded actor owning `nextReqId`, the `openReqs` map and the
`AppStats` counters.  Messages arrive on channels; we model the message
stream as a list of operations processed sequentially, exactly as the single
control goroutine does.  The `openReqs` map is modelled by its key set (a
`Finset Nat`); stats gauges published via `a.Stats.Gauge` are recorded in an
event trace, and `a.Errorf` lines in a bug log. -/

/-- A statsd event emitted by the control loop (`a.Stats.Gauge` calls). -/
inductive StatsEvent where
  | gauge (key : String) (val : Int)
  deriving DecidableEq, Repr

/-- State owned by the `requestMaker` goroutine: `nextReqId` and `openReqs`
are its locals, `totalReqs`/`currentReqs`/`currentWSReqs` are the fields of
the `appStats` value it owns.  `statsEvents` (newest first) records gauge
publications and `bugLog` records `Errorf` lines. -/
structure RMState where
  nextReqId : Nat
  openReqs : Finset Nat
  totalReqs : Int
  currentReqs : Int
  currentWSReqs : Int
  statsEvents : List StatsEvent
  bugLog : List String
  deriving DecidableEq

/-- Messages the control loop can receive.  `wantReq` models an admission message on
`a.wantReq` (with its `websocket` flag); `retire` models a value on
`a.doneReq`, carrying the id of the retired `Req` and whether its `WS`
field is non-nil; `snapshot` models a reply channel on `a.getStats`. -/
inductive RMOp where
  | wantReq (websocket : Bool)
  | retire (id : Nat) (hasWS : Bool)
  | snapshot
  deriving DecidableEq, Repr

/-- Initial state of the control loop: `nextReqId := 0`, empty `openReqs`
map, zero-valued `AppStats`. -/
def initRM : RMState :=
  { nextReqId := 0, openReqs := ∅, totalReqs := 0, currentReqs := 0,
    currentWSReqs := 0, statsEvents := [], bugLog := [] }

/-- One iteration of the `select` loop in `App.requestMaker`.

`wantReq` (admission): builds the request with `id := nextReqId`, stores it in
`openReqs`, increments `nextReqId`, `totalReqs`, `currentReqs` (and
`currentWSReqs` when the request is a websocket), then publishes the three
gauges.

`retire`: if the id is unknown, only logs the BUG line; otherwise runs
`doneReq.finished`, decrements `currentReqs`, republishes its gauge,
decrements `currentWSReqs` (with gauge) when `doneReq.WS != nil`, and
deletes the id from `openReqs`.

`snapshot`: replies with the current `appStats` value; no state change. -/
def requestMakerStep (s : RMState) : RMOp → RMState
  | .wantReq websocket =>
      let id := s.nextReqId
      let totalReqs := s.totalReqs + 1
      let currentReqs := s.currentReqs + 1
      let currentWSReqs := if websocket then s.currentWSReqs + 1 else s.currentWSReqs
      { s with
        nextReqId := id + 1
        openReqs := insert id s.openReqs
        totalReqs := totalReqs
        currentReqs := currentReqs
        currentWSReqs := currentWSReqs
        statsEvents :=
          StatsEvent.gauge "current_ws_reqs" currentWSReqs ::
          StatsEvent.gauge "current_http_reqs" currentReqs ::
          StatsEvent.gauge "http_reqs" totalReqs :: s.statsEvents }
  | .retire id hasWS =>
      if id ∈ s.openReqs then
        let currentReqs := s.currentReqs - 1
        let currentWSReqs := if hasWS then s.currentWSReqs - 1 else s.currentWSReqs
        { s with
          openReqs := s.openReqs.erase id
          currentReqs := currentReqs
          currentWSReqs := currentWSReqs
          statsEvents :=
            (if hasWS then [StatsEvent.gauge "current_ws_reqs" currentWSReqs] else []) ++
            StatsEvent.gauge "current_http_reqs" currentReqs :: s.statsEvents }
      else
        { s with
          bugLog := ("BUG! Unknown request id [" ++ toString id ++ "] being retired") :: s.bugLog }
  | .snapshot => s

/-- Run the control loop over a message stream. -/
def runRM (s : RMState) : List RMOp → RMState
  | [] => s
  | op :: ops => runRM (requestMakerStep s op) ops

/-- The `currentReqs` value a `getStats` snapshot reports: the control loop
sends its `appStats` value on the reply channel unchanged. -/
def snapshotCurrentReqs (s : RMState) : Int := s.currentReqs

/-- Invariant carried through the proofs: every open id is below
`nextReqId` (freshness) and `currentReqs` counts the open map. -/
def RMInv (s : RMState) : Prop :=
  (∀ i ∈ s.openReqs, i < s.nextReqId) ∧ s.currentReqs = (s.openReqs.card : Int)

theorem rmInv_init : RMInv initRM := by
  constructor
  · intro i hi
    simp [initRM] at hi
  · simp [initRM]

theorem rmInv_step (s : RMState) (op : RMOp) (h : RMInv s) :
    RMInv (requestMakerStep s op) := by
  obtain ⟨hfresh, hcard⟩ := h
  cases op with
  | wantReq websocket =>
      refine ⟨?_, ?_⟩
      · intro i hi
        simp only [requestMakerStep, Finset.mem_insert] at hi ⊢
        rcases hi with rfl | hi
        · omega
        · exact Nat.lt_succ_of_lt (hfresh i hi)
      · have hnotmem : s.nextReqId ∉ s.openReqs := fun hmem =>
          lt_irrefl _ (hfresh _ hmem)
        simp only [requestMakerStep]
        rw [Finset.card_insert_of_not_mem hnotmem]
        push_cast
        omega
  | retire id hasWS =>
      by_cases hmem : id ∈ s.openReqs
      · refine ⟨?_, ?_⟩
        · intro i hi
          simp only [requestMakerStep, if_pos hmem] at hi ⊢
          exact hfresh i (Finset.mem_of_mem_erase hi)
        · simp only [requestMakerStep, if_pos hmem]
          rw [Finset.card_erase_of_mem hmem]
          have hpos : 0 < s.openReqs.card := Finset.card_pos.mpr ⟨id, hmem⟩
          omega
      · simp only [requestMakerStep, if_neg hmem]
        exact ⟨hfresh, hcard⟩
  | snapshot => exact ⟨hfresh, hcard⟩

theorem rmInv_run (s : RMState) (ops : List RMOp) (h : RMInv s) :
    RMInv (runRM s ops) := by
  induction ops generalizing s with
  | nil => exact h
  | cons op ops ih => exact ih _ (rmInv_step s op h)

/-- C1: after any sequence of admit/retire operations processed by the
registry control thread, `currentReqs` (the value observed inside the
thread and reported by any stats snapshot) equals the cardinality of the
`openReqs` map. -/
theorem currentReqs_eq_openReqs_card (ops : List RMOp) :
    (runRM initRM ops).currentReqs = ((runRM initRM ops).openReqs.card : Int) ∧
    snapshotCurrentReqs (runRM initRM ops) = ((runRM initRM ops).openReqs.card : Int) := by
  have h := rmInv_run initRM ops rmInv_init
  exact ⟨h.2, h.2⟩

/-- C3: retiring an id that is not in `openReqs` only appends the BUG line
to the error log; `currentReqs`, `totalReqs`, `currentWSReqs`, `nextReqId`,
the `openReqs` map and the gauge trace are all left exactly as they were. -/
theorem retire_unknown_id_noop (s : RMState) (id : Nat) (hasWS : Bool)
    (h : id ∉ s.openReqs) :
    requestMakerStep s (.retire id hasWS) =
      { s with
        bugLog := ("BUG! Unknown request id [" ++ toString id ++ "] being retired") :: s.bugLog } := by
  simp only [requestMakerStep, if_neg h]

/-- Witness for C3: retiring id 5 in the initial (empty) registry state. -/
theorem retire_unknown_id_noop_witness :
    5 ∉ initRM.openReqs ∧
    requestMakerStep initRM (.retire 5 false) =
      { initRM with bugLog := ["BUG! Unknown request id [5] being retired"] } :=
  ⟨by decide, retire_unknown_id_noop initRM 5 false (by decide)⟩

/-- Ids handed out by the control loop while processing a message stream:
each `wantReq` admission is given the current `nextReqId` (which the step then
increments). -/
def assignedIds (s : RMState) : List RMOp → List Nat
  | [] => []
  | .wantReq ws :: ops => s.nextReqId :: assignedIds (requestMakerStep s (.wantReq ws)) ops
  | .retire id h :: ops => assignedIds (requestMakerStep s (.retire id h)) ops
  | .snapshot :: ops => assignedIds (requestMakerStep s .snapshot) ops

theorem nextReqId_mono (s : RMState) (op : RMOp) :
    s.nextReqId ≤ (requestMakerStep s op).nextReqId := by
  cases op with
  | wantReq ws => simp [requestMakerStep]
  | retire id hasWS =>
      by_cases h : id ∈ s.openReqs
      · simp [requestMakerStep, h]
      · simp [requestMakerStep, h]
  | snapshot => exact le_refl _

theorem assignedIds_lower_bound (ops : List RMOp) (s : RMState) (x : Nat)
    (hx : x ∈ assignedIds s ops) : s.nextReqId ≤ x := by
  induction ops generalizing s with
  | nil => simp [assignedIds] at hx
  | cons op ops ih =>
      cases op with
      | wantReq ws =>
          simp only [assignedIds, List.mem_cons] at hx
          rcases hx with rfl | hx
          · exact le_refl _
          · exact le_trans (nextReqId_mono s (.wantReq ws)) (ih _ hx)
      | retire id h =>
          exact le_trans (nextReqId_mono s (.retire id h)) (ih _ hx)
      | snapshot =>
          exact le_trans (nextReqId_mono s .snapshot) (ih _ hx)

theorem assignedIds_pairwise (ops : List RMOp) (s : RMState) :
    (assignedIds s ops).Pairwise (· < ·) := by
  induction ops generalizing s with
  | nil => exact List.Pairwise.nil
  | cons op ops ih =>
      cases op with
      | wantReq ws =>
          refine List.pairwise_cons.mpr ⟨?_, ih _⟩
          intro x hx
          have hle := assignedIds_lower_bound ops (requestMakerStep s (.wantReq ws)) x hx
          have : (requestMakerStep s (.wantReq ws)).nextReqId = s.nextReqId + 1 := by
            simp [requestMakerStep]
          omega
      | retire id h => exact ih _
      | snapshot => exact ih _

/-- C9: the request ids handed out at admission over any message stream are
strictly increasing (each admission receives the current `nextReqId`, which
is then incremented), so no id is ever assigned to two different requests
within the lifetime of the control thread. -/
theorem reqIds_strictly_increasing (ops : List RMOp) :
    (assignedIds initRM ops).Pairwise (· < ·) ∧ (assignedIds initRM ops).Nodup :=
  ⟨assignedIds_pairwise ops initRM,
   (assignedIds_pairwise ops initRM).imp Nat.ne_of_lt⟩

/-! ## Graceful restart trigger

Embeds `App.StartGracefulRestart` (the restart trigger guarded by the
`doingGraceful` flag) and, for the `max_requests` policy, the admission
counter increment of `App.requestMaker` (`a.totalReqs++`) together with the
`max_requests` block of `Req.finished` (`restartReqs > 0 &&
g.app.totalReqs > restartReqs`).  Log lines are recorded with their level;
the apostrophes of the original message texts are spelled out.  The SIGUSR2
self-signal is counted in `sigusr2Sent`. -/

/-- A log line with its level. -/
inductive LogLine where
  | debug (msg : String)
  | info (msg : String)
  | error (msg : String)
  deriving DecidableEq, Repr

/-- App-level state touched by the restart trigger and the request
counters of the `requestMaker` loop that shares this `App` value. -/
structure GopApp where
  totalReqs : Int
  doingGraceful : Bool
  sigusr2Sent : Nat
  log : List LogLine
  deriving DecidableEq

/-- Fresh `App`: counters at zero, no restart in progress. -/
def initGopApp : GopApp :=
  { totalReqs := 0, doingGraceful := false, sigusr2Sent := 0, log := [] }

/-- `App.StartGracefulRestart(reason)`.  If `doingGraceful` is already set,
log a Debug line and return.  Otherwise log Info, look up our own process
(`findOk` models the `os.FindProcess` result, which always succeeds on the
Unix platforms gop targets), set `doingGraceful` and send SIGUSR2 to
ourselves. -/
def startGracefulRestart (findOk : Bool) (reason : String) (a : GopApp) : GopApp :=
  if a.doingGraceful then
    { a with log := .debug ("Ignoring graceful [" ++ reason ++ "] - already in graceful") :: a.log }
  else if findOk then
    { a with
      doingGraceful := true
      sigusr2Sent := a.sigusr2Sent + 1
      log := .info "Sending SIGUSR2" ::
        .info ("Starting triggered graceful restart: " ++ reason) :: a.log }
  else
    { a with
      log := .error "Cannot FindProcess myself - cannot graceful restart" ::
        .info ("Starting triggered graceful restart: " ++ reason) :: a.log }

/-- A sequence of calls to `StartGracefulRestart`, each with its reason
string, processed in order (process lookup succeeding, as it always does on
the target platform). -/
def runGracefulCalls (a : GopApp) : List String → GopApp
  | [] => a
  | r :: rs => runGracefulCalls (startGracefulRestart true r a) rs

theorem runGracefulCalls_after (rs : List String) (a : GopApp)
    (h : a.doingGraceful = true) :
    (runGracefulCalls a rs).doingGraceful = true ∧
    (runGracefulCalls a rs).sigusr2Sent = a.sigusr2Sent := by
  induction rs generalizing a with
  | nil => exact ⟨h, rfl⟩
  | cons r rs ih =>
      have hstep : startGracefulRestart true r a =
          { a with log := .debug ("Ignoring graceful [" ++ r ++ "] - already in graceful") :: a.log } := by
        simp [startGracefulRestart, h]
      rw [runGracefulCalls, hstep]
      exact ih _ h

/-- C2: the restart trigger is idempotent.  Over any non-empty sequence of
calls to `StartGracefulRestart`, exactly one SIGUSR2 is sent and the
in-progress flag ends up set (the first call wins); moreover any call made
while `doingGraceful` is set is a pure logged no-op: it only prepends the
Debug line. -/
theorem startGracefulRestart_first_wins (reasons : List String) (h : reasons ≠ []) :
    (runGracefulCalls initGopApp reasons).doingGraceful = true ∧
    (runGracefulCalls initGopApp reasons).sigusr2Sent = 1 ∧
    ∀ (findOk : Bool) (r : String) (a : GopApp), a.doingGraceful = true →
      startGracefulRestart findOk r a =
        { a with log := .debug ("Ignoring graceful [" ++ r ++ "] - already in graceful") :: a.log } := by
  match reasons with
  | [] => exact absurd rfl h
  | r :: rs =>
      have hfirst : startGracefulRestart true r initGopApp =
          { initGopApp with
            doingGraceful := true
            sigusr2Sent := 1
            log := .info "Sending SIGUSR2" ::
              .info ("Starting triggered graceful restart: " ++ r) :: [] } := by
        simp [startGracefulRestart, initGopApp]
      have hrest := runGracefulCalls_after rs (startGracefulRestart true r initGopApp)
        (by rw [hfirst])
      refine ⟨?_, ?_, ?_⟩
      · rw [runGracefulCalls]
        exact hrest.1
      · rw [runGracefulCalls, hrest.2, hfirst]
      · intro findOk r' a ha
        simp [startGracefulRestart, ha]

/-- Witness for C2: two competing trigger calls, one SIGUSR2. -/
theorem startGracefulRestart_first_wins_witness :
    (runGracefulCalls initGopApp ["Max requests reached", "Run time limit reached"]).doingGraceful = true ∧
    (runGracefulCalls initGopApp ["Max requests reached", "Run time limit reached"]).sigusr2Sent = 1 :=
  ⟨(startGracefulRestart_first_wins ["Max requests reached", "Run time limit reached"] (by decide)).1,
   (startGracefulRestart_first_wins ["Max requests reached", "Run time limit reached"] (by decide)).2.1⟩

/-- The `totalReqs` increment performed by `App.requestMaker` when it
admits a request (`a.totalReqs++` in the `wantReq` branch). -/
def requestMakerWantReq (a : GopApp) : GopApp :=
  { a with totalReqs := a.totalReqs + 1 }

/-- The `max_requests` block of `Req.finished`: with `restartReqs` read
from config key `gop/max_requests`, if `restartReqs > 0 &&
g.app.totalReqs > restartReqs` then log the Error line and call
`StartGracefulRestart("Max requests reached")`. -/
def finishedRestartCheck (restartReqs : Int) (a : GopApp) : GopApp :=
  if restartReqs > 0 ∧ a.totalReqs > restartReqs then
    startGracefulRestart true "Max requests reached"
      { a with log := .error ("Graceful restart after max_requests: " ++ toString restartReqs) :: a.log }
  else a

/-- One strictly sequential request: admitted (incrementing `totalReqs`),
handled, then retired, which runs `Req.finished` and its `max_requests`
check. -/
def seqRound (restartReqs : Int) (a : GopApp) : GopApp :=
  finishedRestartCheck restartReqs (requestMakerWantReq a)

/-- `n` strictly sequential requests from a fresh app. -/
def seqRun (restartReqs : Int) : Nat → GopApp
  | 0 => initGopApp
  | n + 1 => seqRound restartReqs (seqRun restartReqs n)

set_option maxRecDepth 4000 in
/-- C4: with `max_requests = 100` and requests admitted and retired
strictly sequentially, retiring the 100th request does not trigger the
graceful-restart sequence, and retiring the 101st does (at its retire time
`totalReqs = 101 > 100`). -/
theorem maxRequests_restart_on_101st :
    (seqRun 100 100).doingGraceful = false ∧ (seqRun 100 100).sigusr2Sent = 0 ∧
    (seqRun 100 101).doingGraceful = true ∧ (seqRun 100 101).sigusr2Sent = 1 := by
  decide

/-! ## The nelly supervisor

Embeds `nelly.go`: the startup grace-ping logic of `checkForDeath` and the
pidfile handling of `okToStart` / `writePidFile` / `Finish`.  The
filesystem is modelled by the pidfile content (`Option Int`: `none` means
no file, the recorded pid otherwise; `readPidFile` treats a parsed pid of 0
as absent, as `Sscanf` does for garbage) and a flag for the pid directory
existing.  The liveness probe `syscall.Kill(pid, 0)` is an environment
function `alive`. -/

/-- One call of `nelly.checkForDeath`, given whether
`processGroupIsEmpty()` observed an empty process group on this tick.
Returns whether the child is declared dead, together with the new
`startGracePings` counter (a Go `int`, so it may go negative). -/
def checkForDeath (groupEmpty : Bool) (startGracePings : Int) : Bool × Int :=
  if groupEmpty then
    let g := startGracePings - 1
    if g ≤ 0 then (true, g) else (false, g)
  else (false, 0)

/-- Tick index (1-based) at which nelly first declares the child dead,
running `checkForDeath` over a trace of empty-group observations from a
given `startGracePings` value; `none` if the trace ends first. -/
def firstDeath (startGracePings : Int) : List Bool → Option Nat
  | [] => none
  | e :: rest =>
      let r := checkForDeath e startGracePings
      if r.1 then some 1 else (firstDeath r.2 rest).map (· + 1)

/-- C6: with `nelly_startup_grace_checks = 3`, a run of consecutive
empty-group ticks from startup is fatal exactly on the third tick; any
non-empty tick resets the grace counter to zero, after which a single
empty tick is immediately fatal (illustrated by the trace
empty-empty-nonempty-empty, fatal on tick 4). -/
theorem nelly_grace_checks_three (n : Nat) :
    (firstDeath 3 (List.replicate n true) = if 3 ≤ n then some 3 else none) ∧
    (∀ g : Int, checkForDeath false g = (false, 0)) ∧
    checkForDeath true 0 = (true, -1) ∧
    firstDeath 3 [true, true, false, true] = some 4 := by
  refine ⟨?_, fun g => rfl, rfl, rfl⟩
  match n with
  | 0 => rfl
  | 1 => rfl
  | 2 => rfl
  | (k + 3) =>
      have h1 : firstDeath 3 (List.replicate (k + 3) true) = some 3 := by
        rw [List.replicate_succ, List.replicate_succ, List.replicate_succ]
        rfl
      rw [h1, if_pos (by omega)]

/-- Pidfile directory plus pidfile content; `none` means the pidfile does
not exist. -/
structure NellyFS where
  runDirExists : Bool
  pidfile : Option Int
  deriving DecidableEq, Repr

/-- Environment of a supervisor instance: the result of the liveness probe
`syscall.Kill(pid, 0)` for each pid, our own pid, and whether opening the
pidfile for writing succeeds. -/
structure NellyEnv where
  alive : Int → Bool
  myPid : Int
  writeOk : Bool

/-- Supervisor state: the filesystem view, the `ownThePidFile` flag and
the error log. -/
structure NellySt where
  fs : NellyFS
  ownThePidFile : Bool
  errLog : List String
  deriving DecidableEq

/-- Freshly started supervisor over a given filesystem: Go zero value
`ownThePidFile = false`, nothing logged. -/
def initNellySt (fs : NellyFS) : NellySt :=
  { fs := fs, ownThePidFile := false, errLog := [] }

/-- `nelly.readPidFile`: absent file reads as `(0, false)`; a content that
scans to pid 0 also reads as absent. -/
def readPidFile (fs : NellyFS) : Int × Bool :=
  match fs.pidfile with
  | none => (0, false)
  | some p => if p = 0 then (0, false) else (p, true)

def msgStatFail : String := "Cannot stat pid dir"

def msgPidfileClaims (pid : Int) : String :=
  "Pid file exists - claims pid " ++ toString pid

def msgPidRunning (pid : Int) : String :=
  "Pid " ++ toString pid ++ " is running - we cannot start up"

def msgContactErr (pid : Int) : String :=
  "Error contacting pid " ++ toString pid ++ " - assume it is not there and claim pidfile"

def msgWriteFail : String := "Cannot write pid file"

/-- `nelly.writePidFile`: open/create the pidfile, write our own pid and
take ownership; on open failure return the error and change nothing. -/
def writePidFile (env : NellyEnv) (s : NellySt) : Bool × NellySt :=
  if env.writeOk then
    (true, { s with fs := { s.fs with pidfile := some env.myPid }, ownThePidFile := true })
  else (false, s)

/-- `nelly.okToStart`: fail if the pid directory cannot be stat-ed; if a
pidfile with a nonzero pid exists, probe that pid with signal 0 and fail
(leaving the file alone) when the probe succeeds; otherwise fall through
and (over)write the pidfile with our own pid. -/
def okToStart (env : NellyEnv) (s : NellySt) : Bool × NellySt :=
  if s.fs.runDirExists = false then
    (false, { s with errLog := msgStatFail :: s.errLog })
  else
    let rp := readPidFile s.fs
    let pid := rp.1
    let s1 := if rp.2 then { s with errLog := msgPidfileClaims pid :: s.errLog } else s
    if rp.2 && env.alive pid then
      (false, { s1 with errLog := msgPidRunning pid :: s1.errLog })
    else
      let s2 := if rp.2 then { s1 with errLog := msgContactErr pid :: s1.errLog } else s1
      let w := writePidFile env s2
      if w.1 then (true, w.2)
      else (false, { w.2 with errLog := msgWriteFail :: w.2.errLog })

/-- `nelly.Finish`: remove the pidfile only when this instance owns it. -/
def finishNelly (s : NellySt) : NellySt :=
  if s.ownThePidFile then { s with fs := { s.fs with pidfile := none } } else s

/-- C5: a supervisor reclaims an existing pidfile only after the liveness
probe of the recorded pid fails.  If the recorded pid is alive,
`okToStart` returns false, only logs, leaves the pidfile untouched and
never takes ownership, so `Finish` at exit also leaves the pidfile alone;
if the probe fails, the pidfile is overwritten with our own pid and
ownership is taken. -/
theorem pidfile_reclaim_only_after_probe_failure
    (env : NellyEnv) (fs : NellyFS) (pid : Int)
    (hdir : fs.runDirExists = true)
    (hfile : fs.pidfile = some pid)
    (hpid : pid ≠ 0) :
    (env.alive pid = true →
      okToStart env (initNellySt fs) =
        (false, { initNellySt fs with errLog := [msgPidRunning pid, msgPidfileClaims pid] }) ∧
      finishNelly (okToStart env (initNellySt fs)).2 = (okToStart env (initNellySt fs)).2) ∧
    (env.alive pid = false → env.writeOk = true →
      (okToStart env (initNellySt fs)).1 = true ∧
      (okToStart env (initNellySt fs)).2.fs.pidfile = some env.myPid ∧
      (okToStart env (initNellySt fs)).2.ownThePidFile = true) := by
  have hread : readPidFile fs = (pid, true) := by
    simp [readPidFile, hfile, hpid]
  constructor
  · intro halive
    constructor
    · simp [okToStart, initNellySt, hdir, hread, halive]
    · have h1 : (okToStart env (initNellySt fs)).2.ownThePidFile = false := by
        simp [okToStart, initNellySt, hdir, hread, halive]
      simp [finishNelly, h1]
  · intro hdead hw
    refine ⟨?_, ?_, ?_⟩ <;>
      simp [okToStart, initNellySt, hdir, hread, hdead, writePidFile, hw]

/-- Concrete filesystem for the C5 witness: pidfile records pid 42. -/
def fsW : NellyFS := { runDirExists := true, pidfile := some 42 }

/-- Concrete environment for the C5 witness: pid 42 is alive. -/
def envW : NellyEnv := { alive := fun p => p = 42, myPid := 7, writeOk := true }

/-- Witness for C5, live-pid case: the second supervisor refuses to start
and the pidfile still records pid 42, including after `Finish`. -/
theorem pidfile_reclaim_witness :
    okToStart envW (initNellySt fsW) =
      (false, { initNellySt fsW with errLog := [msgPidRunning 42, msgPidfileClaims 42] }) ∧
    finishNelly (okToStart envW (initNellySt fsW)).2 = (okToStart envW (initNellySt fsW)).2 :=
  (pidfile_reclaim_only_after_probe_failure envW fsW 42 rfl rfl (by decide)).1 (by decide)

/-! ## The response writer and handler failure paths

Embeds the `responseWriter` wrapper (fields `size` and `code`, methods
`Write`, `WriteHeader`, `HasWritten`), `HTTPError.Write`, the
error-return path at the end of `App.wrapHandlerInternal`, and the
non-websocket tail of `dealWithPanic`.  Bytes sent to the underlying
`http.ResponseWriter` are accumulated in `body` (chunks in order) and
header writes in `headerWrites`, so "no further bytes are written" is
equality of those traces. -/

/-- The `responseWriter` wrapper plus the traces of what reached the
underlying writer. -/
structure RespWriter where
  code : Int
  size : Nat
  body : List String
  headerWrites : List Int
  deriving DecidableEq, Repr

/-- `responseWriter.Write`: account the length, pass the bytes through. -/
def rwWrite (buf : String) (w : RespWriter) : RespWriter :=
  { w with size := w.size + buf.length, body := w.body ++ [buf] }

/-- `responseWriter.WriteHeader`: record the code and pass it through. -/
def rwWriteHeader (c : Int) (w : RespWriter) : RespWriter :=
  { w with code := c, headerWrites := w.headerWrites ++ [c] }

/-- `responseWriter.HasWritten`: `w.size > 0`. -/
def hasWritten (w : RespWriter) : Bool := w.size > 0

/-- Return value of a gop handler that controls the error response. -/
structure HTTPError where
  Code : Int
  Body : String
  deriving DecidableEq, Repr

/-- `HTTPError.Write`: status line, body, then CRLF. -/
def httpErrorWrite (e : HTTPError) (w : RespWriter) : RespWriter :=
  rwWrite "\x0d\x0a" (rwWrite e.Body (rwWriteHeader e.Code w))

/-- An `error` value returned by a handler: either an `HTTPError` or any
other error, carrying its `Error()` string. -/
inductive GoError where
  | http (e : HTTPError)
  | other (msg : String)
  deriving DecidableEq, Repr

/-- The error-return tail of `App.wrapHandlerInternal` for a non-websocket
request whose writer is set: wrap a non-`HTTPError` as a 500; if the
handler already wrote data, log and discard the error, otherwise write it
to the response.  Returns the writer and the log lines produced. -/
def handleReturnedError (err : Option GoError) (w : RespWriter) :
    RespWriter × List String :=
  match err with
  | none => (w, [])
  | some e =>
      let httpErr := match e with
        | .http h => h
        | .other msg => { Code := 500, Body := "Internal error: " ++ msg }
      if hasWritten w then
        (w, ["Handler returned http error after writing data [" ++
          "HTTP Error [" ++ toString httpErr.Code ++ "] - " ++ httpErr.Body ++
          "] - discarding error"])
      else
        (httpErrorWrite httpErr w, [])

/-- A recovered panic value, after the type switch in `dealWithPanic`:
either a panicked `HTTPError` or anything else reduced to its message
string. -/
inductive PanicVal where
  | httpError (e : HTTPError)
  | message (msg : String)
  deriving DecidableEq, Repr

/-- The non-websocket tail of `dealWithPanic` (`g.WS == nil`, `g.W` set):
compute `errCode`/`errBody` from the recovered value, the custom panic
message and the backtrace settings, then either log (when the handler had
already written data) or write the `HTTPError` to the response.  `bt`
stands in for the `runtime.Stack` backtrace text.  Returns the writer and
the error-level log lines. -/
def dealWithPanicTail (p : PanicVal) (showInResponse : Bool)
    (panicHTTPMessage : String) (bt : String) (w : RespWriter) :
    RespWriter × List String :=
  let errCode : Int := match p with
    | .httpError e => e.Code
    | .message _ => 500
  let errBody0 : String := match p with
    | .httpError e => e.Body
    | .message msg => if panicHTTPMessage = "" then "PANIC: " ++ msg else panicHTTPMessage
  let sawHTTPErrorPanic : Bool := match p with
    | .httpError _ => true
    | .message _ => false
  let errBody := if !sawHTTPErrorPanic && showInResponse then errBody0 ++ "\x0a\x0a" ++ bt else errBody0
  if hasWritten w then
    (w, ["PANIC after handler had written data: " ++ errBody])
  else
    (httpErrorWrite { Code := errCode, Body := errBody } w, [])

/-- C7: when the handler has already written body bytes (`HasWritten`),
both failure paths leave the response exactly as the handler produced it
(writer unchanged: no body bytes, no status write) and emit exactly one
log line; and the error body/status is written to the response only when
nothing had been written. -/
theorem failure_after_partial_response_writes_nothing
    (w : RespWriter) (e : GoError) (p : PanicVal)
    (showInResponse : Bool) (pm bt : String)
    (h : hasWritten w = true) :
    ((handleReturnedError (some e) w).1 = w ∧
      (handleReturnedError (some e) w).2.length = 1) ∧
    ((dealWithPanicTail p showInResponse pm bt w).1 = w ∧
      (dealWithPanicTail p showInResponse pm bt w).2.length = 1) ∧
    (∀ w' : RespWriter, hasWritten w' = false → ∀ e' : GoError,
      (handleReturnedError (some e') w').1 =
        httpErrorWrite (match e' with
          | .http h' => h'
          | .other msg => { Code := 500, Body := "Internal error: " ++ msg }) w') := by
  refine ⟨⟨?_, ?_⟩, ⟨?_, ?_⟩, ?_⟩
  · simp [handleReturnedError, h]
  · simp [handleReturnedError, h]
  · simp [dealWithPanicTail, h]
  · simp [dealWithPanicTail, h]
  · intro w' hw' e'
    cases e' <;> simp [handleReturnedError, hw']

/-- Witness for C7: a writer that already carries three body bytes. -/
theorem failure_after_partial_response_witness :
    hasWritten { code := 200, size := 3, body := ["abc"], headerWrites := [] } = true ∧
    (handleReturnedError (some (.other "boom"))
        { code := 200, size := 3, body := ["abc"], headerWrites := [] }).1 =
      { code := 200, size := 3, body := ["abc"], headerWrites := [] } :=
  ⟨by decide,
   ((failure_after_partial_response_writes_nothing
      { code := 200, size := 3, body := ["abc"], headerWrites := [] }
      (.other "boom") (.message "boom") false "" ""
      (by decide)).1).1⟩

/-- The writer `App.wrapHandlerInternal` installs for a non-websocket
request: `responseWriter{code: 200, ResponseWriter: w}` (Go zero values
for `size`; nothing written yet). -/
def initRespWriter : RespWriter :=
  { code := 200, size := 0, body := [], headerWrites := [] }

/-- What a handler does to its writer, as seen by the wrapper. -/
inductive WAction where
  | write (buf : String)
  | writeHeader (c : Int)
  deriving DecidableEq, Repr

def applyWAction (w : RespWriter) : WAction → RespWriter
  | .write buf => rwWrite buf w
  | .writeHeader c => rwWriteHeader c w

/-- Run a handler interaction against the freshly installed writer. -/
def runHandlerWrites (acts : List WAction) : RespWriter :=
  acts.foldl applyWAction initRespWriter

/-- The codes passed to `WriteHeader`, in order. -/
def headerCodes (acts : List WAction) : List Int :=
  acts.filterMap fun a => match a with
    | .writeHeader c => some c
    | .write _ => none

/-- The per-status-code counter key `Req.finished` increments:
`fmt.Sprintf("http_status.%d", code)` with `code = g.W.code` when the
writer is set and the Go zero value 0 otherwise. -/
def finishedStatusKey (w : Option RespWriter) : String :=
  "http_status." ++ toString (match w with
    | some w => w.code
    | none => (0 : Int))

theorem foldl_code (acts : List WAction) (w : RespWriter) :
    (acts.foldl applyWAction w).code = (headerCodes acts).getLastD w.code := by
  induction acts generalizing w with
  | nil => rfl
  | cons a acts ih =>
      cases a with
      | write buf =>
          rw [List.foldl_cons, ih]
          rfl
      | writeHeader c =>
          rw [List.foldl_cons, ih]
          have hc : headerCodes (WAction.writeHeader c :: acts) = c :: headerCodes acts := rfl
          rw [hc, List.getLastD_cons]
          rfl

/-- C10: the per-request writer starts at code 200, so after any handler
interaction the recorded code is the last code passed to `WriteHeader`, or
200 when `WriteHeader` was never called, and that is the code under which
`Req.finished` increments `http_status.<code>`. -/
theorem status_code_recorded (acts : List WAction) :
    (runHandlerWrites acts).code = (headerCodes acts).getLastD 200 ∧
    finishedStatusKey (some (runHandlerWrites acts)) =
      "http_status." ++ toString ((headerCodes acts).getLastD 200) := by
  have h : (runHandlerWrites acts).code = (headerCodes acts).getLastD 200 :=
    foldl_code acts initRespWriter
  exact ⟨h, congrArg (fun c => "http_status." ++ toString c) h⟩

/-! ## Deriving the client address

Embeds the `realRemoteIP` computation at the top of the `wantReq` branch
of `App.requestMaker`: start from `wantReq.r.RemoteAddr`; when config
`gop/use_xf_headers` is set and the `X-Forwarded-For` header is non-empty,
split it on commas (`strings.Split`), trim each part (`strings.TrimSpace`)
and keep the last part.  Strings are modelled as `List Char`. -/

/-- `strings.Split(s, ",")`: comma-separated parts; the empty string
yields one empty part, so the result is never empty. -/
def goSplitComma : List Char → List (List Char)
  | [] => [[]]
  | c :: rest =>
      if c = ',' then [] :: goSplitComma rest
      else (c :: (goSplitComma rest).headD []) :: (goSplitComma rest).tail

/-- Whitespace as trimmed by `strings.TrimSpace` (`unicode.IsSpace`),
restricted to the Latin-1 range: tab, newline, vertical tab, form feed,
carriage return, space, next line (U+0085) and no-break space (U+00A0).
Space characters above Latin-1 are not modelled. -/
def isGoSpace (c : Char) : Bool :=
  c = ' ' || c = Char.ofNat 9 || c = Char.ofNat 10 || c = Char.ofNat 11 ||
  c = Char.ofNat 12 || c = Char.ofNat 13 || c = Char.ofNat 133 || c = Char.ofNat 160

/-- `strings.TrimSpace`: drop leading and trailing whitespace. -/
def goTrimSpace (s : List Char) : List Char :=
  ((s.dropWhile isGoSpace).reverse.dropWhile isGoSpace).reverse

/-- The `realRemoteIP` computed for an admitted request, from the
`use_xf_headers` config flag, the transport `RemoteAddr` and the
`X-Forwarded-For` header value (empty when the header is unset). -/
def deriveRealRemoteIP (useXF : Bool) (remoteAddr xff : List Char) : List Char :=
  if useXF then
    if xff = [] then remoteAddr
    else ((goSplitComma xff).map goTrimSpace).getLastD []
  else remoteAddr

theorem goSplitComma_ne_nil (s : List Char) : goSplitComma s ≠ [] := by
  cases s with
  | nil => simp [goSplitComma]
  | cons c rest =>
      by_cases h : c = ','
      · simp [goSplitComma, h]
      · simp [goSplitComma, h]

theorem getLastD_map (f : List Char → List Char) (l : List (List Char))
    (h : l ≠ []) (d d' : List Char) :
    (l.map f).getLastD d' = f (l.getLastD d) := by
  induction l generalizing d d' with
  | nil => exact absurd rfl h
  | cons a t ih =>
      cases t with
      | nil => rfl
      | cons b t2 =>
          rw [List.map_cons, List.getLastD_cons, List.getLastD_cons]
          exact ih (by simp) a (f a)

/-- C8: with `use_xf_headers` enabled and a non-empty `X-Forwarded-For`
header, the derived client address is the last comma-separated element of
the header, trimmed of surrounding whitespace; with the mode disabled or
the header empty, it is the raw transport remote address. -/
theorem realRemoteIP_from_xff (useXF : Bool) (remoteAddr xff : List Char) :
    (useXF = true → xff ≠ [] →
      deriveRealRemoteIP useXF remoteAddr xff =
        goTrimSpace ((goSplitComma xff).getLastD [])) ∧
    (useXF = false ∨ xff = [] →
      deriveRealRemoteIP useXF remoteAddr xff = remoteAddr) := by
  constructor
  · intro hu hx
    subst hu
    rw [deriveRealRemoteIP, if_pos rfl, if_neg hx]
    exact getLastD_map goTrimSpace _ (goSplitComma_ne_nil xff) [] []
  · intro h
    rcases h with h | h
    · subst h
      rfl
    · subst h
      rw [deriveRealRemoteIP]
      by_cases hu : useXF = true
      · rw [if_pos hu, if_pos rfl]
      · rw [if_neg hu]

/-- Witness for C8: a two-hop forwarded-for chain; the derived address is
the trimmed last hop, and with the mode disabled it is the transport
address. -/
theorem realRemoteIP_from_xff_witness :
    deriveRealRemoteIP true "10.0.0.1".toList " 1.2.3.4, 5.6.7.8 ".toList =
      goTrimSpace ((goSplitComma " 1.2.3.4, 5.6.7.8 ".toList).getLastD []) ∧
    deriveRealRemoteIP false "10.0.0.1".toList " 1.2.3.4, 5.6.7.8 ".toList =
      "10.0.0.1".toList ∧
    deriveRealRemoteIP true "10.0.0.1".toList " 1.2.3.4, 5.6.7.8 ".toList =
      "5.6.7.8".toList :=
  ⟨(realRemoteIP_from_xff true "10.0.0.1".toList " 1.2.3.4, 5.6.7.8 ".toList).1 rfl (by decide),
   (realRemoteIP_from_xff false "10.0.0.1".toList " 1.2.3.4, 5.6.7.8 ".toList).2 (Or.inl rfl),
   by decide⟩

end Gop
